import Mathlib

/-!
Verification of the mpdify MPD-to-Spotify bridge against its natural-language
specification.  The Rust sources are shallowly embedded: pure functions become
Lean functions over `Nat`/`Int`/`ℚ`/`List Char`/`String`, fallible code returns
`Option` or `Except`, and machine-integer overflow is made explicit with
`% 2^64` where it matters.  Unless noted otherwise every definition is a
direct translation of the function of the same name in the Rust sources.
-/

set_option maxRecDepth 8000

/-! ## Data model -/

/-- Supported subsystems for the idle command
(`src/mpd_protocol/input.rs`, `enum IdleSubsystem`).  The `outputs` variant is
required by `CachedPlayback::compare` (`src/handlers/aspotify/playback.rs`
inserts `IdleSubsystem::Outputs`) and is listed in the spec's subsystem set;
the copy of the enum in `input.rs` predates it. -/
inductive IdleSubsystem
  | playQueue
  | playlists
  | player
  | mixer
  | options
  | outputs
  deriving DecidableEq, Fintype, Repr

/-- `enumset::EnumSet<IdleSubsystem>` is embedded as a finite set of subsystems. -/
abbrev IdleSet := Finset IdleSubsystem

/-- `EnumSet::all()` -/
def IdleSet.all : IdleSet := Finset.univ

/-- `aspotify::RepeatState` (external enum, consumed and produced by
`compute_repeat` in `src/handlers/aspotify/utils.rs`). -/
inductive RepeatState
  | off
  | context
  | track
  deriving DecidableEq, Fintype, Repr

/-- Errors caused by invalid client input (`src/mpd_protocol/input.rs`,
`enum InputError`); the invalid-syntax variant is not produced by any of the
embedded functions and is omitted. -/
inductive InputError
  | missingCommand
  | unknownCommand (command : String)
  | missingArgument (name : String)
  | invalidArgument (name : String) (value : String)
  | nestedLists
  deriving DecidableEq, Repr

/-- Parses a float, optionally prefixed by + or -
(`src/mpd_protocol/input.rs`, `enum RelativeFloat`).  `f64` values are
embedded as exact rationals. -/
inductive RelativeFloat
  | absolute (seconds : ℚ)
  | relative (seconds : ℚ)
  deriving DecidableEq, Repr

/-- Half-open position range (`src/mpd_protocol/input.rs`,
`struct PositionRange`).  The second field is named `end` in the source;
renamed `stop` because `end` is reserved in Lean. -/
structure PositionRange where
  start : Nat
  stop : Nat
  deriving DecidableEq, Repr

/-- `src/mpd_protocol/commands.rs`, `enum Command`.  The
`CommandListStart(CommandList)` payload carries the `verbose` flag of
`struct CommandList`; the accumulated sub-command vector (always empty when
the parser creates the value — `CommandList::start`) is filled by the
connection loop, which is not modeled here, and is omitted. -/
inductive Command
  | CurrentSong
  | Idle (subsystems : IdleSet)
  | NoIdle
  | Status
  | Stats
  | Commands
  | Outputs
  | EnableOutput (id : Nat)
  | PlaylistInfo (range : Option PositionRange)
  | PlaylistId (songid : Option Nat)
  | Random (state : Bool)
  | Repeat (state : Bool)
  | RepeatSingle (state : Bool)
  | Next
  | Pause (paused : Option Bool)
  | PlayPos (pos : Option Nat)
  | PlayId (songid : Option Nat)
  | Previous
  | SeekId (songid : Nat) (time : ℚ)
  | SeekPos (songpos : Nat) (time : ℚ)
  | SeekCur (time : RelativeFloat)
  | Stop
  | GetVolume
  | SetVolume (vol : Nat)
  | ChangeVolume (change : Int)
  | Ping
  | Close
  | CommandListStart (verbose : Bool)
  | CommandListEnd
  | SpotifyAuth (url : Option String)
  deriving DecidableEq

/-! ## Argument parsers

Models of the Rust `FromStr` implementations used by the argument binder. -/

/-- Numeric value of a list of decimal digits, most significant first. -/
def digitsToNat (cs : List Char) : Nat :=
  cs.foldl (fun acc c => 10 * acc + (c.toNat - '0'.toNat)) 0

/-- Rust `from_str` for an unsigned integer type with maximum value `maxVal`:
an optional leading `+`, then one or more decimal digits; values above the
type's maximum are rejected (overflow). -/
def parseUnsignedChars (maxVal : Nat) (cs : List Char) : Option Nat :=
  let digits := match cs with
    | '+' :: rest => rest
    | _ => cs
  if digits ≠ [] ∧ digits.all Char.isDigit then
    let n := digitsToNat digits
    if n ≤ maxVal then some n else none
  else none

/-- `usize::MAX` on the 64-bit targets this program builds for. -/
def usizeMax : Nat := 2 ^ 64 - 1

/-- Rust `usize::from_str` -/
def parse_usize (s : String) : Option Nat := parseUnsignedChars usizeMax s.data

/-- Rust `u32::from_str` -/
def parse_u32 (s : String) : Option Nat := parseUnsignedChars (2 ^ 32 - 1) s.data

/-- Rust `u8::from_str` -/
def parse_u8 (s : String) : Option Nat := parseUnsignedChars 255 s.data

/-- Rust `i32::from_str`: optional sign, then decimal digits, within the
two's-complement range. -/
def parse_i32 (s : String) : Option Int :=
  match s.data with
  | '-' :: rest =>
    if rest ≠ [] ∧ rest.all Char.isDigit then
      let n := digitsToNat rest
      if n ≤ 2 ^ 31 then some (-(n : Int)) else none
    else none
  | cs =>
    let digits := match cs with
      | '+' :: rest => rest
      | _ => cs
    if digits ≠ [] ∧ digits.all Char.isDigit then
      let n := digitsToNat digits
      if n ≤ 2 ^ 31 - 1 then some (n : Int) else none
    else none

/-- Unsigned decimal with an optional fractional part (`digits`,
`digits.digits`, `digits.` or `.digits`), as an exact rational. -/
def parseDecimalChars (cs : List Char) : Option ℚ :=
  match cs.splitOn '.' with
  | [intPart] =>
    if intPart ≠ [] ∧ intPart.all Char.isDigit then some (digitsToNat intPart) else none
  | [intPart, fracPart] =>
    if (intPart ≠ [] ∨ fracPart ≠ []) ∧ intPart.all Char.isDigit ∧ fracPart.all Char.isDigit then
      some ((digitsToNat intPart : ℚ) + (digitsToNat fracPart : ℚ) / (10 : ℚ) ^ fracPart.length)
    else none
  | _ => none

/-- Rust `f64::from_str` restricted to the plain decimal forms the protocol
uses (optional sign, decimal digits, optional fraction); exponent, infinity
and NaN spellings are not modeled.  Values are exact rationals. -/
def parse_f64 (s : String) : Option ℚ :=
  match s.data with
  | '+' :: rest => parseDecimalChars rest
  | '-' :: rest => (parseDecimalChars rest).map (fun q => -q)
  | cs => parseDecimalChars cs

/-- `RelativeFloat::from_str` (`src/mpd_protocol/input.rs`): parse as `f64`,
then a leading `+` or `-` selects the relative variant. -/
def RelativeFloat.from_str (s : String) : Option RelativeFloat :=
  (parse_f64 s).map fun value =>
    match s.data with
    | '+' :: _ => RelativeFloat.relative value
    | '-' :: _ => RelativeFloat.relative value
    | _ => RelativeFloat.absolute value

/-- `PositionRange::from_str` (`src/mpd_protocol/input.rs`): split on `:`;
one part is `[N, N+1)`, two parts require `end > start`.  All parse failures
collapse to `none` (the binder maps any `FromStr` error to
`InvalidArgument`). -/
def PositionRange.from_str (s : String) : Option PositionRange :=
  match s.data.splitOn ':' with
  | [p] => (parseUnsignedChars usizeMax p).map (fun pos => ⟨pos, pos + 1⟩)
  | [a, b] =>
    match parseUnsignedChars usizeMax a, parseUnsignedChars usizeMax b with
    | some lo, some hi => if hi > lo then some ⟨lo, hi⟩ else none
    | _, _ => none
  | _ => none

/-- `serde_yaml::from_str::<IdleSubsystem>` on one token: the serde wire
names of the subsystems (`playlist`, `stored_playlist`, lowercased variant
names otherwise). -/
def IdleSubsystem.from_wire (s : String) : Option IdleSubsystem :=
  if s = "playlist" then some .playQueue
  else if s = "stored_playlist" then some .playlists
  else if s = "player" then some .player
  else if s = "mixer" then some .mixer
  else if s = "options" then some .options
  else if s = "outputs" then some .outputs
  else none

/-! ## Tokenizer and command binder (`src/mpd_protocol/commands.rs`) -/

/-- The loop of `tokenize_command`: one state step per input character, with
the escape flag, the quote flag, the current token and the finished tokens as
accumulators. -/
def tokenizeLoop : List Char → Bool → Bool → String → List String → List String
  | [], _, _, current, tokens =>
    if current.isEmpty then tokens else tokens ++ [current]
  | c :: rest, isEscaped, isQuoted, current, tokens =>
    if isEscaped then tokenizeLoop rest false isQuoted (current.push c) tokens
    else if c = '\\' then tokenizeLoop rest true isQuoted current tokens
    else if c = '"' ∨ c = '\'' then tokenizeLoop rest false (!isQuoted) current tokens
    else if c.isWhitespace then
      if isQuoted then tokenizeLoop rest false isQuoted (current.push c) tokens
      else if current.isEmpty then tokenizeLoop rest false isQuoted current tokens
      else tokenizeLoop rest false isQuoted "" (tokens ++ [current])
    else tokenizeLoop rest false isQuoted (current.push c) tokens

/-- `tokenize_command` -/
def tokenize_command (input : String) : List String :=
  tokenizeLoop input.data false false "" []

/-- `Command::known_commands()` -/
def known_commands : List String :=
  [ "currentsong", "status", "commands", "idle", "noidle", "playlistinfo",
    "playlistid", "random", "repeat", "single", "next", "pause", "previous",
    "seekcur", "seekid", "seekpos", "stop", "play", "playid", "getvol",
    "setvol", "volume", "ping", "close", "command_list_begin",
    "command_list_ok_begin", "command_list_end", "auth", "outputs",
    "toggleoutput", "enableoutput" ]

/-- `Arguments::opt`: pop the next token if any and run the argument's
parser; a parse failure is an `InvalidArgument` carrying the argument name
and the offending token.  Returns the value and the remaining tokens. -/
def Arguments.opt (p : String → Option α) (name : String) (args : List String) :
    Except InputError (Option α × List String) :=
  match args with
  | [] => .ok (none, [])
  | v :: rest =>
    match p v with
    | some x => .ok (some x, rest)
    | none => .error (.invalidArgument name v)

/-- `Arguments::req`: like `opt` but a missing token is `MissingArgument`. -/
def Arguments.req (p : String → Option α) (name : String) (args : List String) :
    Except InputError (α × List String) :=
  (Arguments.opt p name args).bind fun
    | (some x, rest) => .ok (x, rest)
    | (none, _) => .error (.missingArgument name)

/-- `int_to_bool` -/
def int_to_bool (value : Nat) : Bool := value > 0

/-- `check_song_id`: ensures song IDs are strictly higher than zero (invalid
value). -/
def check_song_id (id : Option Nat) : Except InputError (Option Nat) :=
  match id with
  | some 0 => .error (.invalidArgument "songid" "0")
  | _ => .ok id

/-- The `idle` argument loop: parse each token as a subsystem wire name,
silently ignoring unsupported names. -/
def parseIdleArgs : List String → IdleSet → IdleSet
  | [], acc => acc
  | name :: rest, acc =>
    match IdleSubsystem.from_wire name with
    | some sub => parseIdleArgs rest (insert sub acc)
    | none => parseIdleArgs rest acc

/-- `Command::from_tokens`: the first token selects the command, the
remaining tokens are bound positionally. -/
def Command.from_tokens (tokens : List String) : Except InputError Command :=
  match tokens with
  | [] => .error .missingCommand
  | command :: args =>
    match command with
    | "currentsong" => .ok .CurrentSong
    | "status" => .ok .Status
    | "stats" => .ok .Stats
    | "commands" => .ok .Commands
    | "outputs" => .ok .Outputs
    | "toggleoutput" => (Arguments.req parse_usize "id" args).map (fun r => .EnableOutput r.1)
    | "enableoutput" => (Arguments.req parse_usize "id" args).map (fun r => .EnableOutput r.1)
    | "idle" =>
      if args.isEmpty then .ok (.Idle IdleSet.all)
      else .ok (.Idle (parseIdleArgs args ∅))
    | "noidle" => .ok .NoIdle
    | "playlistinfo" =>
      (Arguments.opt PositionRange.from_str "range" args).map (fun r => .PlaylistInfo r.1)
    | "playlistid" => do
      let r ← Arguments.opt parse_usize "songid" args
      let id ← check_song_id r.1
      return .PlaylistId id
    | "random" => (Arguments.req parse_u8 "state" args).map (fun r => .Random (int_to_bool r.1))
    | "repeat" => (Arguments.req parse_u8 "state" args).map (fun r => .Repeat (int_to_bool r.1))
    | "single" =>
      (Arguments.req parse_u8 "state" args).map (fun r => .RepeatSingle (int_to_bool r.1))
    | "next" => .ok .Next
    | "pause" =>
      (Arguments.opt parse_u8 "paused" args).map (fun r => .Pause (r.1.map int_to_bool))
    | "previous" => .ok .Previous
    | "seekcur" =>
      (Arguments.req RelativeFloat.from_str "time" args).map (fun r => .SeekCur r.1)
    | "seekid" => do
      let r ← Arguments.req parse_usize "songid" args
      let t ← Arguments.req parse_f64 "time" r.2
      return .SeekId r.1 t.1
    | "seekpos" => do
      let r ← Arguments.req parse_usize "songpos" args
      let t ← Arguments.req parse_f64 "time" r.2
      return .SeekPos r.1 t.1
    | "stop" => .ok .Stop
    | "play" => (Arguments.opt parse_usize "pos" args).map (fun r => .PlayPos r.1)
    | "playid" => do
      let r ← Arguments.opt parse_usize "songid" args
      let id ← check_song_id r.1
      return .PlayId id
    | "getvol" => .ok .GetVolume
    | "setvol" => (Arguments.req parse_u32 "vol" args).map (fun r => .SetVolume r.1)
    | "volume" => (Arguments.req parse_i32 "change" args).map (fun r => .ChangeVolume r.1)
    | "ping" => .ok .Ping
    | "close" => .ok .Close
    | "command_list_begin" => .ok (.CommandListStart false)
    | "command_list_ok_begin" => .ok (.CommandListStart true)
    | "command_list_end" => .ok .CommandListEnd
    | "auth" => (Arguments.opt (fun s => some s) "url" args).map (fun r => .SpotifyAuth r.1)
    | "clearerror" => .ok .Ping
    | "channels" => .ok .Ping
    | "subscribe" => .ok .Ping
    | "unsubscribe" => .ok .Ping
    | "readmessages" => .ok .Ping
    | "sendmessage" => .ok .Ping
    | "consume" => .ok .Ping
    | "crossfade" => .ok .Ping
    | "mixrampdb" => .ok .Ping
    | "mixrampdelay" => .ok .Ping
    | "replay_gain_mode" => .ok .Ping
    | "replay_gain_status" => .ok .Ping
    | "disableoutput" => .ok .Ping
    | _ => .error (.unknownCommand command)

/-! ## Handler chain (`src/handlers/client.rs`, `src/listeners/mpd/listener.rs`) -/

/-- `src/mpd_protocol/handlers.rs`, `enum HandlerError`.  The variants that
wrap external library error types are collapsed to data-free or
string-carrying constructors. -/
inductive HandlerError
  | unsupported
  | authNeeded (url : String)
  | ioError
  | fromString (msg : String)
  deriving DecidableEq, Repr

/-- `src/mpd_protocol/handlers.rs`, `enum HandlerOutput`.  `Data(OutputData)`
carries erased serializable records; the payload is abstracted to the list of
their serialized forms. -/
inductive HandlerOutput
  | ok
  | data (records : List String)
  | binary (size : Nat) (chunk : List Nat)
  | lines (l : List String)
  | close
  | idle (subsystems : IdleSet)
  deriving DecidableEq

deriving instance DecidableEq for Except

/-- `HandlerResult` -/
abbrev HandlerResult := Except HandlerError HandlerOutput

/-- A handler endpoint: the mailbox round-trip of
`(Command, oneshot reply)` is embedded as a function from the command to the
reply. -/
abbrev Handler := Command → HandlerResult

/-- `HandlerClient::exec`: try each registered handler in order; a handler
answering `Unsupported` passes the command on; any other reply is final; if
all handlers answer `Unsupported` the result is `Unsupported`. -/
def HandlerClient.exec (handlers : List Handler) (command : Command) : HandlerResult :=
  match handlers with
  | [] => .error .unsupported
  | h :: rest =>
    let result := h command
    if result = .error .unsupported then HandlerClient.exec rest command
    else result

/-- `BasicCommandHandler` (`src/listeners/mpd/listener.rs`): handles `Ping`,
`Close` and `Commands`, everything else is `Unsupported`. -/
def BasicCommandHandler (command : Command) : HandlerResult :=
  match command with
  | .Ping => .ok .ok
  | .Close => .ok .close
  | .Commands => .ok (.lines (known_commands.map (fun s => "command: " ++ s)))
  | _ => .error .unsupported

/-! ## Artwork chunked read (`src/handlers/artwork/handler.rs`) -/

/-- The `Command::AlbumArt` arm of `ArtworkHandler::execute`, after the blob
was resolved from the cache: `size` is the blob length, the chunk size is
`min(max_chunk_size, size - offset)` with the subtraction performed on `u64`
(wrapping, no guard that `offset ≤ size`), and `read_exact` fails when the
requested chunk overruns the blob. -/
def albumArtChunk (maxChunkSize : Nat) (blob : List Nat) (offset : Nat) : HandlerResult :=
  let size := blob.length
  let chunkSize := min maxChunkSize ((size + 2 ^ 64 - offset) % 2 ^ 64)
  if offset + chunkSize ≤ size then
    .ok (.binary size ((blob.drop offset).take chunkSize))
  else
    .error .ioError

/-! ## Repeat-state translation (`src/handlers/aspotify/utils.rs`) -/

/-- `compute_repeat`: translate the MPD (repeat?, single?) pair into the
remote tri-valued repeat state, starting from the current state. -/
def compute_repeat (current : RepeatState) (rep single : Option Bool) : RepeatState :=
  let desired_repeat := rep.getD (current ≠ RepeatState.off)
  let desired_single := single.getD (current = RepeatState.track)
  match desired_repeat with
  | false => RepeatState.off
  | true =>
    match desired_single with
    | false => RepeatState.context
    | true => RepeatState.track

/-- The repeat-translation rule exactly as the spec words it:
`desired_repeat = repeat ?? (current ≠ Off)`, `desired_single = single ??
(current = Track)`, `target = desired_repeat ? (desired_single ? Track :
Context) : Off`. -/
def specRepeatTarget (current : RepeatState) (rep single : Option Bool) : RepeatState :=
  let desired_repeat := rep.getD (current ≠ RepeatState.off)
  let desired_single := single.getD (current = RepeatState.track)
  if desired_repeat then (if desired_single then RepeatState.track else RepeatState.context)
  else RepeatState.off

/-! ## Artist-name join (`src/handlers/aspotify/song.rs`) -/

/-- The loop of `flatten_artists`, with the artist list abstracted to the
list of artist names (the only field the function reads).  The loop body
appends the name first and only then appends the separator for every element
except the first. -/
def flatten_artists_loop : List String → String → Bool → String
  | [], result, _ => result
  | a :: rest, result, first =>
    let result := result ++ a
    if first then flatten_artists_loop rest result false
    else flatten_artists_loop rest (result ++ ", ") false

/-- `flatten_artists(artists)` -/
def flatten_artists (artists : List String) : String :=
  flatten_artists_loop artists "" true

/-! ## Per-connection idle subscriber (`src/listeners/mpd/idle.rs`) -/

/-- `struct WatcherState` without its channel plumbing: the accumulated
change set and the pending idle filter (`waiting` is empty when no `Idle` is
pending). -/
structure WatcherState where
  changed : IdleSet
  waiting : IdleSet
  deriving DecidableEq

/-- `WatcherState::check`: when the accumulated changes intersect the
pending filter (`EnumSet::is_disjoint` tests that the bit intersection is
empty), send the intersection, remove all filtered bits from `changed` and
clear the filter.  Returns the new state and the emitted set, if any. -/
def WatcherState.check (s : WatcherState) : WatcherState × Option IdleSet :=
  if s.changed ∩ s.waiting ≠ ∅ then
    (⟨s.changed \ s.waiting, ∅⟩, some (s.changed ∩ s.waiting))
  else (s, none)

/-- One iteration of the `WatcherState::run` select loop: either a bus
notification arrives (the received subsystem together with those aggregated
during the 50 ms settling window), or the connection (re)sets the filter
with `Idle(filter)` / `NoIdle` (empty filter). -/
inductive WatcherEvent
  | notify (messages : List IdleSubsystem)
  | enable (filter : IdleSet)

/-- The state transition of `WatcherState::run` for one event: insert the
notified subsystems into `changed`, or install the new filter; in both cases
run `check` afterwards. -/
def WatcherState.step (s : WatcherState) (e : WatcherEvent) : WatcherState × Option IdleSet :=
  match e with
  | .notify messages =>
    WatcherState.check { s with changed := messages.foldl (fun acc m => insert m acc) s.changed }
  | .enable filter => WatcherState.check { s with waiting := filter }

/-! ## Playback snapshot diff (`src/handlers/aspotify/playback.rs`) -/

/-- `aspotify::model::Device`, restricted to the two fields
`CachedPlayback::compare` reads. -/
structure Device where
  volume_percent : Option Nat
  name : String
  deriving DecidableEq

/-- `aspotify::model::CurrentlyPlaying`, restricted to the fields the diff
reads.  The external `Context` and `PlayingType` item values are only ever
compared for equality, so they are abstracted to their identity as strings;
`progress` is a `Duration` embedded as rational seconds. -/
structure CurrentlyPlaying where
  context : Option String
  progress : Option ℚ
  is_playing : Bool
  item : Option String
  deriving DecidableEq

/-- `aspotify::CurrentPlayback`, restricted to the fields the diff reads. -/
structure CurrentPlayback where
  device : Device
  repeat_state : RepeatState
  shuffle_state : Bool
  currently_playing : CurrentlyPlaying
  deriving DecidableEq

/-- `CachedPlayback::get_elapsed`.  A `CachedPlayback` is the optional
snapshot plus the wall-clock `Instant` of retrieval; the embedded version
takes `progressDelta = Instant::now() - retrieved` (in seconds) as an
explicit argument.  The delta is added to the reported progress only when
the snapshot is playing. -/
def get_elapsed (data : Option CurrentPlayback) (progressDelta : ℚ) : Option ℚ :=
  match data with
  | none => none
  | some playing =>
    let progress := playing.currently_playing.progress
    if playing.currently_playing.is_playing then
      progress.map (fun e => e + progressDelta)
    else progress

/-- `CachedPlayback::detect_seek`: whether the player was seeked, with half
a second of tolerance; a missing duration defaults to zero
(`unwrap_or_default`). -/
def detect_seek (old new : Option ℚ) : Bool :=
  let delta := old.getD 0 - new.getD 0
  decide (|delta| > 1 / 2)

/-- `CachedPlayback::compare`: the change set between the cached snapshot
(`data`, retrieved `progressDelta` seconds ago) and a freshly fetched
playback `other`. -/
def CachedPlayback.compare (data : Option CurrentPlayback) (progressDelta : ℚ)
    (other : Option CurrentPlayback) : IdleSet :=
  match data with
  | none =>
    match other with
    | none => ∅
    | some _ => IdleSet.all
  | some old =>
    match other with
    | none => {IdleSubsystem.player}
    | some new =>
      let changed : IdleSet := ∅
      let changed := if old.shuffle_state ≠ new.shuffle_state then
        insert IdleSubsystem.options changed else changed
      let changed := if old.repeat_state ≠ new.repeat_state then
        insert IdleSubsystem.options changed else changed
      let changed := if old.device.volume_percent ≠ new.device.volume_percent then
        insert IdleSubsystem.mixer changed else changed
      let changed := if old.currently_playing.is_playing ≠ new.currently_playing.is_playing then
        insert IdleSubsystem.player changed else changed
      let changed := if old.currently_playing.context ≠ new.currently_playing.context then
        insert IdleSubsystem.playQueue changed else changed
      let changed := if old.currently_playing.item ≠ new.currently_playing.item then
        insert IdleSubsystem.player changed else changed
      let changed := if old.device.name ≠ new.device.name then
        insert IdleSubsystem.outputs changed else changed
      let changed := if detect_seek (get_elapsed data progressDelta)
          new.currently_playing.progress then
        insert IdleSubsystem.player changed else changed
      changed

/-- The spec's diff table for the case where both snapshots are present:
volume → Mixer, shuffle or repeat → Options, is_playing → Player, context →
PlayQueue, item → Player, device name → Outputs, detected seek → Player. -/
def specDiffSome (old new : CurrentPlayback) (seekDetected : Bool) : IdleSet :=
  (if old.device.volume_percent ≠ new.device.volume_percent then {IdleSubsystem.mixer} else ∅) ∪
  (if old.shuffle_state ≠ new.shuffle_state ∨ old.repeat_state ≠ new.repeat_state then
    {IdleSubsystem.options} else ∅) ∪
  (if old.currently_playing.is_playing ≠ new.currently_playing.is_playing then
    {IdleSubsystem.player} else ∅) ∪
  (if old.currently_playing.context ≠ new.currently_playing.context then
    {IdleSubsystem.playQueue} else ∅) ∪
  (if old.currently_playing.item ≠ new.currently_playing.item then
    {IdleSubsystem.player} else ∅) ∪
  (if old.device.name ≠ new.device.name then {IdleSubsystem.outputs} else ∅) ∪
  (if seekDetected then {IdleSubsystem.player} else ∅)

/-! ## Path codec (`src/mpd_protocol/path.rs`) -/

/-- `enum ItemType` -/
inductive ItemType
  | track
  | album
  | show
  | episode
  | artist
  deriving DecidableEq, Repr

/-- strum `AsRefStr` with `serialize_all = "lowercase"`.  Path strings are
embedded as `List Char`. -/
def ItemType.as_ref : ItemType → List Char
  | .track => "track".data
  | .album => "album".data
  | .show => "show".data
  | .episode => "episode".data
  | .artist => "artist".data

/-- strum `EnumString` with `serialize_all = "lowercase"` (exact match). -/
def ItemType.from_str (cs : List Char) : Option ItemType :=
  if cs = "track".data then some .track
  else if cs = "album".data then some .album
  else if cs = "show".data then some .show
  else if cs = "episode".data then some .episode
  else if cs = "artist".data then some .artist
  else none

/-- `enum Path`; named `MpdPath` here because Mathlib already declares
`Path`. -/
inductive MpdPath
  | empty
  | internal (items : List (ItemType × List Char))
  deriving DecidableEq

/-- The item loop of `<Path as FromStr>::from_str`: while the next token
parses as an item type, read the id token; a missing or empty id pushes
nothing (the loop then continues on the remaining tokens); a token that is
not an item type ends the loop. -/
def parsePathItems : List (List Char) → List (ItemType × List Char)
  | [] => []
  | t :: rest =>
    match ItemType.from_str t with
    | none => []
    | some ty =>
      match rest with
      | [] => []
      | id :: rest2 =>
        if id = [] then parsePathItems rest2
        else (ty, id) :: parsePathItems rest2

/-- `<Path as FromStr>::from_str`: split the input on `/`; a missing or
empty first token is `Empty`, the `internal` first token starts the item
loop, any other first token fails. -/
def MpdPath.from_str (s : List Char) : Except InputError MpdPath :=
  match s.splitOn '/' with
  | [] => .ok .empty
  | first :: rest =>
    if first = [] then .ok .empty
    else if first = "internal".data then .ok (.internal (parsePathItems rest))
    else .error (.invalidArgument "path" (String.mk first))

/-- `<Path as ToString>::to_string`: `internal`, then `/type/id` per item. -/
def MpdPath.to_string : MpdPath → List Char
  | .empty => []
  | .internal items =>
    items.foldl (fun output p => output ++ '/' :: (ItemType.as_ref p.1 ++ '/' :: p.2))
      "internal".data

/-- One rendered `("/" type "/" id?)*` tail of the spec's path grammar; an
absent id is the empty text. -/
def specRenderSegments (segs : List (ItemType × List Char)) : List Char :=
  "internal".data ++
    (segs.map (fun p => '/' :: (ItemType.as_ref p.1 ++ '/' :: p.2))).flatten

/-- A path string is well-formed per the spec grammar
`path := "" | "internal" ("/" type "/" id?)*` (ids are slash-free tokens,
possibly empty). -/
def WellFormedPath (s : List Char) : Prop :=
  s = [] ∨ ∃ segs : List (ItemType × List Char),
    (∀ p ∈ segs, ('/' : Char) ∉ p.2) ∧ s = specRenderSegments segs

/-- The token list produced by splitting a rendered segment tail on `/`. -/
def pathTokens : List (ItemType × List Char) → List (List Char)
  | [] => []
  | p :: rest => ItemType.as_ref p.1 :: p.2 :: pathTokens rest

/-! ## MPD response serializer (`src/mpd_protocol/ser.rs`,
`src/mpd_protocol/output.rs`) -/

/-- `SerializeStruct::serialize_field`: the key, `": "`, the serialized
value, then a newline. -/
def serialize_field (key value : String) : String := key ++ ": " ++ value ++ "\n"

/-- `Serializer::serialize_none` writes nothing; `serialize_some` forwards
to the wrapped value (already rendered here). -/
def optionValueText : Option String → String
  | none => ""
  | some v => v

/-- The serde-derive output for one struct field: when the field carries
`skip_serializing_if = "Option::is_none"` and the value is `None`, the field
is skipped entirely; otherwise its line is emitted (a `None` value without
the attribute renders as the empty string after the colon). -/
def renderOptField (key : String) (skip : Bool) (v : Option String) : String :=
  if skip ∧ v = none then "" else serialize_field key (optionValueText v)

/-- A record serialized by `ser::to_string`: the concatenation of its field
lines, in declaration order. -/
def renderStruct (fields : List (String × Bool × Option String)) : String :=
  String.join (fields.map (fun f => renderOptField f.1 f.2.1 f.2.2))

/-- Rust `Display` for `f64`: an integral value prints with no decimal
point.  Only integral durations occur in the concrete records below;
formatting of non-integral values is not modeled faithfully. -/
def renderF64 (q : ℚ) : String :=
  if q.den = 1 then toString q.num else toString q

/-- `struct SongResponse` (`src/mpd_protocol/output.rs`). -/
structure SongResponse where
  file : MpdPath
  artist : String
  album : String
  title : String
  date : Option Nat
  pos : Nat
  id : Nat
  duration : ℚ
  track : Option Nat
  disc : Option Nat
  deriving DecidableEq

/-- The serde field list of `SongResponse` with its renames (`PascalCase`,
`file`, `duration`) and `skip_serializing_if` attributes exactly as written
in `output.rs`: only `track` and `disc` carry the attribute; `date` does
not.  `Path` serializes through its `to_string`. -/
def songResponseFields (r : SongResponse) : List (String × Bool × Option String) :=
  [ ("file", false, some (String.mk (MpdPath.to_string r.file))),
    ("Artist", false, some r.artist),
    ("Album", false, some r.album),
    ("Title", false, some r.title),
    ("Date", false, r.date.map (fun n => toString n)),
    ("Pos", false, some (toString r.pos)),
    ("Id", false, some (toString r.id)),
    ("duration", false, some (renderF64 r.duration)),
    ("Track", true, r.track.map (fun n => toString n)),
    ("Disc", true, r.disc.map (fun n => toString n)) ]

/-- `ser::to_string` applied to a `SongResponse`. -/
def serializeSongResponse (r : SongResponse) : String :=
  renderStruct (songResponseFields r)

/-- `struct VolumeResponse` (`src/mpd_protocol/output.rs`): one optional
field, with the skip attribute. -/
structure VolumeResponse where
  volume : Option Nat
  deriving DecidableEq

/-- The serde field list of `VolumeResponse`. -/
def volumeResponseFields (r : VolumeResponse) : List (String × Bool × Option String) :=
  [("volume", true, r.volume.map (fun n => toString n))]

/-- `ser::to_string` applied to a `VolumeResponse`. -/
def serializeVolumeResponse (r : VolumeResponse) : String :=
  renderStruct (volumeResponseFields r)

/-! ## Theorems -/

lemma string_foldl_append (l : List String) (x y : String) :
    List.foldl (fun r s => r ++ s) (x ++ y) l =
      x ++ List.foldl (fun r s => r ++ s) y l := by
  induction l generalizing y with
  | nil => rfl
  | cons a rest ih => simp only [List.foldl_cons, String.append_assoc, ih]

lemma string_join_cons (a : String) (l : List String) :
    String.join (a :: l) = a ++ String.join l := by
  simp only [String.join, List.foldl_cons]
  simpa using string_foldl_append l a ""

lemma flatten_artists_loop_not_first (artists : List String) (acc : String) :
    flatten_artists_loop artists acc false =
      acc ++ String.join (artists.map (fun a => a ++ ", ")) := by
  induction artists generalizing acc with
  | nil => simp [flatten_artists_loop, String.join]
  | cons a rest ih =>
    simp only [flatten_artists_loop, List.map_cons, Bool.false_eq_true, if_false]
    rw [string_join_cons, ih (acc ++ a ++ ", ")]
    simp [String.append_assoc]

/-- C10: the artist-name join misplaces its separator.  `flatten_artists`
returns `""` for the empty list, `a` for a singleton, and for two or more
artists returns the first name, then each further name followed by `", "` —
so the first two names are concatenated without a separator and the result
has a trailing `", "`. -/
theorem c10_flatten_artists_misplaced_separator :
    flatten_artists [] = "" ∧
    (∀ a : String, flatten_artists [a] = a) ∧
    (∀ (a : String) (rest : List String),
      flatten_artists (a :: rest) = a ++ String.join (rest.map (fun b => b ++ ", "))) ∧
    flatten_artists ["X", "Y", "Z"] = "XY, Z, " := by
  refine ⟨rfl, ?_, ?_, rfl⟩
  · intro a
    simp [flatten_artists, flatten_artists_loop]
  · intro a rest
    simp only [flatten_artists, flatten_artists_loop]
    rw [flatten_artists_loop_not_first]
    simp

/-- C8: `compute_repeat` implements exactly the spec's tri-state translation
rule for every current repeat state and every optional (repeat?, single?)
pair. -/
theorem c8_compute_repeat_matches_spec :
    ∀ (current : RepeatState) (rep single : Option Bool),
      compute_repeat current rep single = specRepeatTarget current rep single := by
  decide

/-- C9: for every album-art request with `offset ≤ size` the handler returns
`Binary(size, chunk)` with `chunk.length = min max_chunk_size (size -
offset)`; the chunk length is computed by an unguarded `u64` subtraction, so
for `offset > size` it underflows (concretely, for a 300-byte blob and
offset 301 the wrapped length is `2^64 - 1`, the chunk request is clamped
only by `max_chunk_size`, and the read fails). -/
theorem c9_albumart_chunk_length :
    (∀ (maxChunkSize : Nat) (blob : List Nat) (offset : Nat),
      offset ≤ blob.length → blob.length < 2 ^ 64 →
        albumArtChunk maxChunkSize blob offset =
          .ok (.binary blob.length
            ((blob.drop offset).take (min maxChunkSize (blob.length - offset)))) ∧
        ((blob.drop offset).take (min maxChunkSize (blob.length - offset))).length =
          min maxChunkSize (blob.length - offset)) ∧
    ((300 + 2 ^ 64 - 301) % 2 ^ 64 = 2 ^ 64 - 1 ∧
      albumArtChunk 131072 (List.replicate 300 0) 301 = .error .ioError) := by
  constructor
  · intro maxChunkSize blob offset hoff hsize
    have hw : (blob.length + 2 ^ 64 - offset) % 2 ^ 64 = blob.length - offset := by
      omega
    have hle : offset + min maxChunkSize (blob.length - offset) ≤ blob.length := by
      omega
    constructor
    · simp only [albumArtChunk, hw, if_pos hle]
    · simp only [List.length_take, List.length_drop]
      omega
  · constructor
    · norm_num
    · rfl

/-- Closed witness for `c9_albumart_chunk_length`: a 300-byte blob read at
offset 256 with a 128-byte chunk limit yields the final 44 bytes. -/
theorem c9_albumart_chunk_length_witness :
    albumArtChunk 128 (List.replicate 300 0) 256 =
      .ok (.binary 300 (((List.replicate 300 (0 : Nat)).drop 256).take (min 128 (300 - 256)))) ∧
    ((((List.replicate 300 (0 : Nat)).drop 256).take (min 128 (300 - 256)))).length =
      min 128 (300 - 256) :=
  (c9_albumart_chunk_length.1 128 (List.replicate 300 0) 256 (by simp) (by simp))

/-- C1 (counterexample): `seekid` is bound without `check_song_id`; parsing
`seekid 0 10` succeeds with song id 0 instead of failing with
`InvalidArgument("songid", "0")`. -/
theorem c1_seekid_zero_counterexample :
    Command.from_tokens ["seekid", "0", "10"] = .ok (.SeekId 0 10) ∧
    Command.from_tokens ["seekid", "0", "10"] ≠
      .error (.invalidArgument "songid" "0") := by
  decide

/-- C1 (amended): the bind-time `> 0` check on song ids is applied by
`playid` and `playlistid` only: for those two commands the argument `0`
fails with `InvalidArgument("songid", "0")` and any token parsing to a value
`n > 0` binds successfully, while `seekid` accepts any parsed song id,
including 0, without the check. -/
theorem c1_songid_check_amended :
    Command.from_tokens ["playid", "0"] = .error (.invalidArgument "songid" "0") ∧
    Command.from_tokens ["playlistid", "0"] = .error (.invalidArgument "songid" "0") ∧
    (∀ (s : String) (n : Nat), parse_usize s = some n → 0 < n →
      Command.from_tokens ["playid", s] = .ok (.PlayId (some n)) ∧
      Command.from_tokens ["playlistid", s] = .ok (.PlaylistId (some n))) ∧
    (∀ (s t : String) (n : Nat) (q : ℚ),
      parse_usize s = some n → parse_f64 t = some q →
      Command.from_tokens ["seekid", s, t] = .ok (.SeekId n q)) := by
  refine ⟨by decide, by decide, ?_, ?_⟩
  · intro s n hs hn
    obtain ⟨m, rfl⟩ : ∃ m, n = m + 1 := ⟨n - 1, by omega⟩
    constructor <;> (simp only [Command.from_tokens, Arguments.opt, hs]; rfl)
  · intro s t n q hs ht
    simp [Command.from_tokens, Arguments.req, Arguments.opt, hs, ht, Bind.bind,
      Except.instMonad, Except.bind, Functor.map, Except.map, Pure.pure, Except.pure]

/-- Closed witness for `c1_songid_check_amended`: concrete tokens exercising
the positive cases. -/
theorem c1_songid_check_amended_witness :
    (Command.from_tokens ["playid", "5"] = .ok (.PlayId (some 5)) ∧
     Command.from_tokens ["playlistid", "5"] = .ok (.PlaylistId (some 5))) ∧
    Command.from_tokens ["seekid", "5", "10"] = .ok (.SeekId 5 10) :=
  ⟨c1_songid_check_amended.2.2.1 "5" 5 (by decide) (by decide),
   c1_songid_check_amended.2.2.2 "5" "10" 5 10 (by decide) (by decide)⟩

lemma tokenizeLoop_ne_empty (cs : List Char) (esc quoted : Bool) (current : String)
    (tokens : List String) (h : ∀ t ∈ tokens, t ≠ "") :
    ∀ t ∈ tokenizeLoop cs esc quoted current tokens, t ≠ "" := by
  induction cs generalizing esc quoted current tokens with
  | nil =>
    intro t ht
    simp only [tokenizeLoop] at ht
    by_cases hcur : current.isEmpty
    · rw [if_pos hcur] at ht
      exact h t ht
    · rw [if_neg hcur] at ht
      rcases List.mem_append.mp ht with hin | hin
      · exact h t hin
      · rcases List.mem_singleton.mp hin with rfl
        simpa [← String.isEmpty_iff] using hcur
  | cons c rest ih =>
    intro t ht
    simp only [tokenizeLoop] at ht
    by_cases h1 : esc = true
    · subst h1
      rw [if_pos rfl] at ht
      exact ih false quoted (current.push c) tokens h t ht
    · rw [if_neg h1] at ht
      split_ifs at ht with h2 h3 h4 h5 h6
      · exact ih true quoted current tokens h t ht
      · exact ih false (!quoted) current tokens h t ht
      · exact ih false quoted (current.push c) tokens h t ht
      · exact ih false quoted current tokens h t ht
      · refine ih false quoted "" (tokens ++ [current]) ?_ t ht
        intro u hu
        rcases List.mem_append.mp hu with hin | hin
        · exact h u hin
        · rcases List.mem_singleton.mp hin with rfl
          simpa [← String.isEmpty_iff] using h6
      · exact ih false quoted (current.push c) tokens h t ht

/-- C4: the tokenizer escapes with backslash, toggles quoted mode on either
quote character, keeps quoted whitespace literal, splits on unquoted
whitespace while dropping empty tokens (universally: no emitted token is
empty), tolerates mismatched quotes by taking the trailing run as the last
token, and maps `'quo\' ted'` to the single token `quo' ted`. -/
theorem c4_tokenize_command_behavior :
    (∀ input : String, (tokenize_command input).all (fun t => !t.isEmpty) = true) ∧
    tokenize_command "slashed\\\\" = ["slashed\\"] ∧
    tokenize_command "\\'" = ["'"] ∧
    tokenize_command "simple space" = ["simple", "space"] ∧
    tokenize_command "\"double quoted\"" = ["double quoted"] ∧
    tokenize_command "'single quoted'" = ["single quoted"] ∧
    tokenize_command "empty last \"\"" = ["empty", "last"] ∧
    tokenize_command "a \"unclosed trail" = ["a", "unclosed trail"] ∧
    tokenize_command "'quo\\' ted'" = ["quo' ted"] := by
  refine ⟨?_, by decide, by decide, by decide, by decide, by decide, by decide,
    by decide, by decide⟩
  intro input
  rw [List.all_eq_true]
  intro t ht
  have := tokenizeLoop_ne_empty input.data false false "" [] (by simp) t ht
  simpa [← String.isEmpty_iff] using this

lemma exec_unsupported_iff (handlers : List Handler) (command : Command) :
    HandlerClient.exec handlers command = .error .unsupported ↔
      ∀ h ∈ handlers, h command = .error .unsupported := by
  induction handlers with
  | nil => simp [HandlerClient.exec]
  | cons h rest ih =>
    simp only [HandlerClient.exec]
    by_cases hc : h command = .error .unsupported
    · simp [hc, ih]
    · simp [hc]

lemma exec_first (pre : List Handler) (h : Handler) (post : List Handler)
    (command : Command) (hpre : ∀ g ∈ pre, g command = .error .unsupported)
    (hh : h command ≠ .error .unsupported) :
    HandlerClient.exec (pre ++ h :: post) command = h command := by
  induction pre with
  | nil => simp [HandlerClient.exec, hh]
  | cons g rest ih =>
    have hg : g command = .error .unsupported := hpre g (by simp)
    simp only [List.cons_append, HandlerClient.exec, hg, if_pos rfl]
    exact ih (fun g' hg' => hpre g' (by simp [hg']))

/-- C6: the dispatcher sends the command to each handler in order, returns
the first reply that is not `Unsupported`, and returns `Unsupported` iff
every handler replied `Unsupported`; with the built-in trivial handler at
the end of the chain, `Ping`, `Close` and `Commands` never yield
`Unsupported`, and when no earlier handler claims them they yield `Ok`, the
`Close` output, and the `Lines` listing of the known command names. -/
theorem c6_dispatcher_fallback_chain :
    (∀ (handlers : List Handler) (command : Command),
      HandlerClient.exec handlers command = .error .unsupported ↔
        ∀ h ∈ handlers, h command = .error .unsupported) ∧
    (∀ (pre : List Handler) (h : Handler) (post : List Handler) (command : Command),
      (∀ g ∈ pre, g command = .error .unsupported) →
      h command ≠ .error .unsupported →
      HandlerClient.exec (pre ++ h :: post) command = h command) ∧
    (∀ chain : List Handler,
      HandlerClient.exec (chain ++ [BasicCommandHandler]) .Ping ≠ .error .unsupported ∧
      HandlerClient.exec (chain ++ [BasicCommandHandler]) .Close ≠ .error .unsupported ∧
      HandlerClient.exec (chain ++ [BasicCommandHandler]) .Commands ≠ .error .unsupported) ∧
    (∀ chain : List Handler,
      (∀ g ∈ chain, g .Ping = .error .unsupported) →
        HandlerClient.exec (chain ++ [BasicCommandHandler]) .Ping = .ok .ok) ∧
    (∀ chain : List Handler,
      (∀ g ∈ chain, g .Close = .error .unsupported) →
        HandlerClient.exec (chain ++ [BasicCommandHandler]) .Close = .ok .close) ∧
    (∀ chain : List Handler,
      (∀ g ∈ chain, g .Commands = .error .unsupported) →
        HandlerClient.exec (chain ++ [BasicCommandHandler]) .Commands =
          .ok (.lines (known_commands.map (fun s => "command: " ++ s)))) := by
  have hbasic : ∀ c ∈ [Command.Ping, Command.Close, Command.Commands],
      BasicCommandHandler c ≠ .error .unsupported := by decide
  refine ⟨exec_unsupported_iff, exec_first, ?_, ?_, ?_, ?_⟩
  · intro chain
    refine ⟨?_, ?_, ?_⟩ <;>
    · intro hcontra
      have hall := (exec_unsupported_iff _ _).mp hcontra
      have := hall BasicCommandHandler (by simp)
      revert this
      decide
  · intro chain hchain
    rw [exec_first chain BasicCommandHandler [] .Ping hchain (by decide)]
    decide
  · intro chain hchain
    rw [exec_first chain BasicCommandHandler [] .Close hchain (by decide)]
    decide
  · intro chain hchain
    rw [exec_first chain BasicCommandHandler [] .Commands hchain (by decide)]
    decide

/-- Closed witness for `c6_dispatcher_fallback_chain`: the one-element chain
containing only the built-in handler. -/
theorem c6_dispatcher_fallback_chain_witness :
    HandlerClient.exec ([] ++ [BasicCommandHandler]) .Ping = .ok .ok ∧
    HandlerClient.exec ([] ++ [BasicCommandHandler]) .Close = .ok .close ∧
    HandlerClient.exec ([] ++ [BasicCommandHandler]) .Commands =
      .ok (.lines (known_commands.map (fun s => "command: " ++ s))) :=
  ⟨c6_dispatcher_fallback_chain.2.2.2.1 [] (by simp),
   c6_dispatcher_fallback_chain.2.2.2.2.1 [] (by simp),
   c6_dispatcher_fallback_chain.2.2.2.2.2 [] (by simp)⟩

lemma foldl_insert_toFinset (messages : List IdleSubsystem) (acc : IdleSet) :
    messages.foldl (fun acc m => insert m acc) acc = acc ∪ messages.toFinset := by
  induction messages generalizing acc with
  | nil => simp
  | cons m rest ih =>
    simp [ih, List.toFinset_cons, Finset.insert_union, Finset.union_insert]

/-- C3: the per-connection idle subscriber (1) accumulates notifications
per-subsystem while no `Idle` is pending, emitting nothing, and a later
`Idle(filter)` whose filter intersects the accumulated set emits
immediately; (2) every emission for a pending `Idle(F)` — whether triggered
by installing the filter or by a notification arriving while `F` is pending
— is exactly `changed ∩ F`, non-empty and contained in `F`, the subsystems
outside `F` stay pending (`changed` becomes `changed \ F`), and after any
emission the pending filter is reset to empty (so the subscriber emits at
most once per `Idle`).  For the notification-triggered case `changed`
includes the subsystems just received. -/
theorem c3_idle_subscriber_invariants :
    (∀ (s : WatcherState) (messages : List IdleSubsystem),
      s.waiting = ∅ →
        s.step (.notify messages) =
          ({ s with changed := s.changed ∪ messages.toFinset }, none)) ∧
    (∀ (s : WatcherState) (filter : IdleSet),
      s.changed ∩ filter ≠ ∅ →
        s.step (.enable filter) = (⟨s.changed \ filter, ∅⟩, some (s.changed ∩ filter))) ∧
    (∀ (s : WatcherState) (filter : IdleSet) (s' : WatcherState) (M : IdleSet),
      s.step (.enable filter) = (s', some M) →
        M = s.changed ∩ filter ∧ M ≠ ∅ ∧ M ⊆ filter ∧
        s'.changed = s.changed \ filter ∧ s'.waiting = ∅) ∧
    (∀ (s : WatcherState) (e : WatcherEvent) (s' : WatcherState) (M : IdleSet),
      s.step e = (s', some M) → M ≠ ∅ ∧ s'.waiting = ∅) ∧
    (∀ (s : WatcherState) (messages : List IdleSubsystem) (s' : WatcherState) (M : IdleSet),
      s.step (.notify messages) = (s', some M) →
        M = (s.changed ∪ messages.toFinset) ∩ s.waiting ∧ M ≠ ∅ ∧ M ⊆ s.waiting ∧
        s'.changed = (s.changed ∪ messages.toFinset) \ s.waiting ∧ s'.waiting = ∅) := by
  refine ⟨?_, ?_, ?_, ?_, ?_⟩
  · intro s messages hw
    rw [WatcherState.step, foldl_insert_toFinset]
    simp [WatcherState.check, hw]
  · intro s filter hne
    show (if s.changed ∩ filter ≠ ∅ then
        ((⟨s.changed \ filter, ∅⟩ : WatcherState), some (s.changed ∩ filter))
      else ({ s with waiting := filter }, (none : Option IdleSet))) =
      (⟨s.changed \ filter, ∅⟩, some (s.changed ∩ filter))
    rw [if_pos hne]
  · intro s filter s' M hstep
    have hstep' : (if s.changed ∩ filter ≠ ∅ then
        ((⟨s.changed \ filter, ∅⟩ : WatcherState), some (s.changed ∩ filter))
      else ({ s with waiting := filter }, (none : Option IdleSet))) = (s', some M) := hstep
    split_ifs at hstep' with h
    · simp only [Prod.mk.injEq, Option.some.injEq] at hstep'
      obtain ⟨hs', hM⟩ := hstep'
      subst hs'
      exact ⟨hM.symm, hM ▸ h, hM ▸ Finset.inter_subset_right, rfl, rfl⟩
    · simp at hstep'
  · intro s e s' M hstep
    cases e with
    | notify messages =>
      have hstep' : (if (messages.foldl (fun acc m => insert m acc) s.changed) ∩ s.waiting ≠ ∅ then
          ((⟨(messages.foldl (fun acc m => insert m acc) s.changed) \ s.waiting, ∅⟩ : WatcherState),
            some ((messages.foldl (fun acc m => insert m acc) s.changed) ∩ s.waiting))
        else ({ s with changed := messages.foldl (fun acc m => insert m acc) s.changed },
          (none : Option IdleSet))) = (s', some M) := hstep
      split_ifs at hstep' with h
      · simp only [Prod.mk.injEq, Option.some.injEq] at hstep'
        obtain ⟨hs', hM⟩ := hstep'
        subst hs'
        exact ⟨hM ▸ h, rfl⟩
      · simp at hstep'
    | enable filter =>
      have hstep' : (if s.changed ∩ filter ≠ ∅ then
          ((⟨s.changed \ filter, ∅⟩ : WatcherState), some (s.changed ∩ filter))
        else ({ s with waiting := filter }, (none : Option IdleSet))) = (s', some M) := hstep
      split_ifs at hstep' with h
      · simp only [Prod.mk.injEq, Option.some.injEq] at hstep'
        obtain ⟨hs', hM⟩ := hstep'
        subst hs'
        exact ⟨hM ▸ h, rfl⟩
      · simp at hstep'
  · intro s messages s' M hstep
    rw [WatcherState.step, foldl_insert_toFinset] at hstep
    have hstep' : (if (s.changed ∪ messages.toFinset) ∩ s.waiting ≠ ∅ then
        ((⟨(s.changed ∪ messages.toFinset) \ s.waiting, ∅⟩ : WatcherState),
          some ((s.changed ∪ messages.toFinset) ∩ s.waiting))
      else ({ s with changed := s.changed ∪ messages.toFinset },
        (none : Option IdleSet))) = (s', some M) := hstep
    split_ifs at hstep' with h
    · simp only [Prod.mk.injEq, Option.some.injEq] at hstep'
      obtain ⟨hs', hM⟩ := hstep'
      subst hs'
      exact ⟨hM.symm, hM ▸ h, hM ▸ Finset.inter_subset_right, rfl, rfl⟩
    · simp at hstep'

/-- Closed witness for `c3_idle_subscriber_invariants`: a subscriber with a
pending Mixer change receives a Player notification while off; a subscriber
with pending Player and Mixer changes answers `Idle({Player})` with exactly
`{Player}`, keeping Mixer pending; and a subscriber parked on
`Idle({Player})` woken by a Player notification emits exactly
`{Player}`. -/
theorem c3_idle_subscriber_invariants_witness :
    (WatcherState.step ⟨{IdleSubsystem.mixer}, ∅⟩ (.notify [IdleSubsystem.player]) =
      ({ changed := {IdleSubsystem.mixer} ∪ [IdleSubsystem.player].toFinset, waiting := ∅ }, none)) ∧
    (WatcherState.step ⟨{IdleSubsystem.player, IdleSubsystem.mixer}, ∅⟩
        (.enable {IdleSubsystem.player}) =
      (⟨{IdleSubsystem.player, IdleSubsystem.mixer} \ {IdleSubsystem.player}, ∅⟩,
        some ({IdleSubsystem.player, IdleSubsystem.mixer} ∩ {IdleSubsystem.player}))) ∧
    ({IdleSubsystem.player} =
        ({IdleSubsystem.player, IdleSubsystem.mixer} : IdleSet) ∩ {IdleSubsystem.player} ∧
      ({IdleSubsystem.player} : IdleSet) ≠ ∅ ∧
      ({IdleSubsystem.player} : IdleSet) ⊆ {IdleSubsystem.player} ∧
      ({IdleSubsystem.mixer} : IdleSet) =
        ({IdleSubsystem.player, IdleSubsystem.mixer} : IdleSet) \ {IdleSubsystem.player} ∧
      (∅ : IdleSet) = ∅) ∧
    ({IdleSubsystem.player} =
        ((∅ : IdleSet) ∪ [IdleSubsystem.player].toFinset) ∩ {IdleSubsystem.player} ∧
      ({IdleSubsystem.player} : IdleSet) ≠ ∅ ∧
      ({IdleSubsystem.player} : IdleSet) ⊆ {IdleSubsystem.player} ∧
      (∅ : IdleSet) =
        ((∅ : IdleSet) ∪ [IdleSubsystem.player].toFinset) \ {IdleSubsystem.player} ∧
      (∅ : IdleSet) = ∅) :=
  ⟨c3_idle_subscriber_invariants.1 ⟨{IdleSubsystem.mixer}, ∅⟩ [IdleSubsystem.player] rfl,
   c3_idle_subscriber_invariants.2.1 ⟨{IdleSubsystem.player, IdleSubsystem.mixer}, ∅⟩
     {IdleSubsystem.player} (by decide),
   c3_idle_subscriber_invariants.2.2.1 ⟨{IdleSubsystem.player, IdleSubsystem.mixer}, ∅⟩
     {IdleSubsystem.player} ⟨{IdleSubsystem.mixer}, ∅⟩ {IdleSubsystem.player} (by decide),
   c3_idle_subscriber_invariants.2.2.2.2 ⟨∅, {IdleSubsystem.player}⟩ [IdleSubsystem.player]
     ⟨∅, ∅⟩ {IdleSubsystem.player} (by decide)⟩

lemma mem_ite_insert (c : Prop) [Decidable c] (a x : IdleSubsystem) (s : IdleSet) :
    x ∈ (if c then insert a s else s) ↔ (c ∧ x = a) ∨ x ∈ s := by
  split_ifs with h <;> simp [h]

lemma mem_ite_singleton (c : Prop) [Decidable c] (a x : IdleSubsystem) :
    x ∈ (if c then ({a} : IdleSet) else ∅) ↔ c ∧ x = a := by
  split_ifs with h <;> simp [h]

set_option maxHeartbeats 2000000 in
/-- C2: `CachedPlayback::compare` returns exactly the spec's diff set:
nothing-cached versus a fresh playback yields all subsystems; a cached
playback versus nothing yields only Player; with both present the set is
the union given by the per-field table (volume → Mixer, shuffle or repeat →
Options, is_playing → Player, context → PlayQueue, item → Player, device
name → Outputs, detected seek → Player), where a seek is detected iff
`|elapsed(old) - progress(new)| > 0.5` seconds; and `elapsed` adds the
wall-clock delta since retrieval exactly when the old snapshot was
playing. -/
theorem c2_playback_compare_diff :
    (∀ (progressDelta : ℚ) (pb : CurrentPlayback),
      CachedPlayback.compare none progressDelta (some pb) = IdleSet.all) ∧
    (∀ (old : CurrentPlayback) (progressDelta : ℚ),
      CachedPlayback.compare (some old) progressDelta none = {IdleSubsystem.player}) ∧
    (∀ (old new : CurrentPlayback) (progressDelta e p : ℚ),
      get_elapsed (some old) progressDelta = some e →
      new.currently_playing.progress = some p →
      CachedPlayback.compare (some old) progressDelta (some new) =
        specDiffSome old new (decide (|e - p| > 1 / 2))) ∧
    (∀ (old : CurrentPlayback) (progressDelta : ℚ),
      (old.currently_playing.is_playing = true →
        get_elapsed (some old) progressDelta =
          old.currently_playing.progress.map (fun x => x + progressDelta)) ∧
      (old.currently_playing.is_playing = false →
        get_elapsed (some old) progressDelta = old.currently_playing.progress)) := by
  refine ⟨fun _ _ => rfl, fun _ _ => rfl, ?_, ?_⟩
  · intro old new progressDelta e p he hp
    have hseek : detect_seek (get_elapsed (some old) progressDelta)
        new.currently_playing.progress = decide (|e - p| > 1 / 2) := by
      rw [he, hp]
      simp [detect_seek]
    ext x
    simp only [CachedPlayback.compare, specDiffSome, hseek, mem_ite_insert,
      mem_ite_singleton, Finset.mem_union, Finset.not_mem_empty, or_false,
      decide_eq_true_eq]
    tauto
  · intro old progressDelta
    constructor <;> intro h <;> simp [get_elapsed, h]

/-- Closed witness for `c2_playback_compare_diff`: a paused snapshot at 90 s
compared 12 s later against a playback whose volume changed from 20 to 25
and whose progress is still 90 s. -/
theorem c2_playback_compare_diff_witness :
    CachedPlayback.compare
        (some ⟨⟨some 20, "dev"⟩, RepeatState.off, false, ⟨none, some 90, false, none⟩⟩) 12
        (some ⟨⟨some 25, "dev"⟩, RepeatState.off, false, ⟨none, some 90, false, none⟩⟩) =
      specDiffSome
        ⟨⟨some 20, "dev"⟩, RepeatState.off, false, ⟨none, some 90, false, none⟩⟩
        ⟨⟨some 25, "dev"⟩, RepeatState.off, false, ⟨none, some 90, false, none⟩⟩
        (decide (|(90 : ℚ) - 90| > 1 / 2)) ∧
    get_elapsed (some ⟨⟨some 20, "dev"⟩, RepeatState.off, true, ⟨none, some 90, true, none⟩⟩) 12 =
      (Option.some (90 : ℚ)).map (fun x => x + 12) :=
  ⟨c2_playback_compare_diff.2.2.1
      ⟨⟨some 20, "dev"⟩, RepeatState.off, false, ⟨none, some 90, false, none⟩⟩
      ⟨⟨some 25, "dev"⟩, RepeatState.off, false, ⟨none, some 90, false, none⟩⟩
      12 90 90 rfl rfl,
   (c2_playback_compare_diff.2.2.2
      ⟨⟨some 20, "dev"⟩, RepeatState.off, true, ⟨none, some 90, true, none⟩⟩ 12).1 rfl⟩

lemma slash_not_mem_as_ref (t : ItemType) : ('/' : Char) ∉ ItemType.as_ref t := by
  cases t <;> decide

lemma ItemType.from_str_as_ref (t : ItemType) :
    ItemType.from_str (ItemType.as_ref t) = some t := by
  cases t <;> rfl

lemma splitOn_segments (segs : List (ItemType × List Char)) :
    ∀ a : List Char, ('/' : Char) ∉ a → (∀ p ∈ segs, ('/' : Char) ∉ p.2) →
    (a ++ (segs.map (fun p => '/' :: (ItemType.as_ref p.1 ++ '/' :: p.2))).flatten).splitOn '/' =
      a :: pathTokens segs := by
  induction segs with
  | nil =>
    intro a ha _
    simp only [List.map_nil, List.flatten_nil, List.append_nil, pathTokens]
    refine List.splitOnP_eq_single _ _ ?_
    intro x hx hbeq
    exact ha (beq_iff_eq.mp hbeq ▸ hx)
  | cons p rest ih =>
    intro a ha hsegs
    simp only [List.map_cons, List.flatten_cons, pathTokens]
    have hshape : a ++ (('/' :: (ItemType.as_ref p.1 ++ '/' :: p.2)) ++
        (rest.map (fun q => '/' :: (ItemType.as_ref q.1 ++ '/' :: q.2))).flatten) =
      a ++ '/' :: (ItemType.as_ref p.1 ++ '/' ::
        (p.2 ++ (rest.map (fun q => '/' :: (ItemType.as_ref q.1 ++ '/' :: q.2))).flatten)) := by
      simp [List.append_assoc]
    rw [hshape]
    have h1 : ∀ x ∈ a, ¬((x == '/') = true) := fun x hx hbeq =>
      ha (beq_iff_eq.mp hbeq ▸ hx)
    have h2 : ∀ x ∈ ItemType.as_ref p.1, ¬((x == '/') = true) := fun x hx hbeq =>
      slash_not_mem_as_ref p.1 (beq_iff_eq.mp hbeq ▸ hx)
    show (a ++ '/' :: (ItemType.as_ref p.1 ++ '/' ::
        (p.2 ++ (rest.map (fun q => '/' :: (ItemType.as_ref q.1 ++ '/' :: q.2))).flatten))).splitOnP
        (· == '/') = _
    rw [List.splitOnP_first _ _ h1 '/' (by simp)]
    rw [List.splitOnP_first _ _ h2 '/' (by simp)]
    have hrest := ih p.2 (hsegs p (by simp)) (fun q hq => hsegs q (by simp [hq]))
    show _ :: _ :: (p.2 ++
      (rest.map (fun q => '/' :: (ItemType.as_ref q.1 ++ '/' :: q.2))).flatten).splitOn '/' = _
    rw [hrest]

lemma parsePathItems_pathTokens (segs : List (ItemType × List Char))
    (h : ∀ p ∈ segs, p.2 ≠ []) :
    parsePathItems (pathTokens segs) = segs := by
  induction segs with
  | nil => rfl
  | cons p rest ih =>
    simp only [pathTokens, parsePathItems, ItemType.from_str_as_ref]
    rw [if_neg (h p (by simp))]
    rw [ih (fun q hq => h q (by simp [hq]))]

lemma foldl_append_flatten (f : α → List Char) (l : List α) (init : List Char) :
    l.foldl (fun out p => out ++ f p) init = init ++ (l.map f).flatten := by
  induction l generalizing init with
  | nil => simp
  | cons x rest ih => simp [ih, List.append_assoc]

lemma to_string_internal (items : List (ItemType × List Char)) :
    MpdPath.to_string (.internal items) = specRenderSegments items := by
  simp only [MpdPath.to_string, specRenderSegments]
  exact foldl_append_flatten _ items _

/-- C5 (counterexample): `internal/track/` is well-formed per the spec
grammar (`("/" type "/" id?)*` with an empty id), parses successfully to the
empty item sequence, but re-formats to `internal`, so
`format(parse(s)) ≠ s`. -/
theorem c5_path_roundtrip_counterexample :
    WellFormedPath "internal/track/".data ∧
    MpdPath.from_str "internal/track/".data = .ok (.internal []) ∧
    MpdPath.to_string (.internal []) = "internal".data ∧
    MpdPath.to_string (.internal []) ≠ "internal/track/".data := by
  refine ⟨Or.inr ⟨[(.track, [])], by decide, by decide⟩, by decide, by decide, by decide⟩

/-- C5 (amended): the parse/format round-trip holds for the empty path and
for every well-formed path string in which each `(type, id)` segment carries
a non-empty (slash-free) id: such a string parses to exactly its segment
sequence and formats back to itself.  Well-formed strings with an empty or
missing id (the "art for parent folder" forms) parse successfully but do not
round-trip, as the counterexample shows. -/
theorem c5_path_roundtrip_amended :
    (MpdPath.from_str [] = .ok .empty ∧ MpdPath.to_string .empty = []) ∧
    (∀ segs : List (ItemType × List Char),
      (∀ p ∈ segs, p.2 ≠ [] ∧ ('/' : Char) ∉ p.2) →
        MpdPath.from_str (specRenderSegments segs) = .ok (.internal segs) ∧
        MpdPath.to_string (.internal segs) = specRenderSegments segs) := by
  refine ⟨⟨rfl, rfl⟩, ?_⟩
  intro segs h
  refine ⟨?_, to_string_internal segs⟩
  have hsplit := splitOn_segments segs "internal".data (by decide)
    (fun p hp => (h p hp).2)
  simp only [MpdPath.from_str, specRenderSegments]
  rw [hsplit]
  simp only [reduceCtorEq, if_neg, if_pos]
  rw [parsePathItems_pathTokens segs (fun p hp => (h p hp).1)]
  simp

/-- Closed witness for `c5_path_roundtrip_amended`: the album/track path of
the repository's own test vector round-trips. -/
theorem c5_path_roundtrip_amended_witness :
    MpdPath.from_str
        (specRenderSegments [(.album, "a1".data), (.track, "t1".data)]) =
      .ok (.internal [(.album, "a1".data), (.track, "t1".data)]) ∧
    MpdPath.to_string (.internal [(.album, "a1".data), (.track, "t1".data)]) =
      specRenderSegments [(.album, "a1".data), (.track, "t1".data)] :=
  c5_path_roundtrip_amended.2 [(.album, "a1".data), (.track, "t1".data)] (by decide)

lemma string_empty_append (s : String) : "" ++ s = s := by
  cases s
  rfl

lemma string_append_empty (s : String) : s ++ "" = s := by
  cases s with
  | mk data =>
    show String.mk (data ++ []) = String.mk data
    rw [List.append_nil]

lemma string_join_append (a b : List String) :
    String.join (a ++ b) = String.join a ++ String.join b := by
  induction a with
  | nil => simp [String.join, string_empty_append]
  | cons x rest ih =>
    simp only [List.cons_append, string_join_cons, ih, String.append_assoc]

/-- C7 (counterexample): `SongResponse.date` has no
`skip_serializing_if` attribute, so serializing a record with `date = None`
emits the line `Date: ` with an empty value rather than omitting the field
(the second conjunct is the output the claim predicts). -/
theorem c7_serializer_none_counterexample :
    serializeSongResponse
        ⟨.internal [(.album, "a1".data), (.track, "t1".data)], "A", "B", "T",
          none, 0, 1, 180, none, none⟩ =
      "file: internal/album/a1/track/t1\nArtist: A\nAlbum: B\nTitle: T\nDate: \nPos: 0\nId: 1\nduration: 180\n" ∧
    serializeSongResponse
        ⟨.internal [(.album, "a1".data), (.track, "t1".data)], "A", "B", "T",
          none, 0, 1, 180, none, none⟩ ≠
      "file: internal/album/a1/track/t1\nArtist: A\nAlbum: B\nTitle: T\nPos: 0\nId: 1\nduration: 180\n" := by
  constructor
  · decide
  · decide

/-- C7 (amended): optional fields that carry
`skip_serializing_if = "Option::is_none"` are omitted entirely when `None`
(in any record, at any position); a record whose fields are all such `None`
optionals serializes to the empty string, as does `VolumeResponse` with no
volume; but `SongResponse.date` lacks the attribute, so a `None` date emits
the line `Date: ` with an empty value between the title and position
lines. -/
theorem c7_serializer_optional_omission_amended :
    (∀ (pre post : List (String × Bool × Option String)) (key : String),
      renderStruct (pre ++ (key, true, none) :: post) = renderStruct (pre ++ post)) ∧
    (∀ fields : List (String × Bool × Option String),
      (∀ f ∈ fields, f.2.1 = true ∧ f.2.2 = none) → renderStruct fields = "") ∧
    serializeVolumeResponse ⟨none⟩ = "" ∧
    (∀ r : SongResponse, r.date = none →
      serializeSongResponse r =
        renderStruct [("file", false, some (String.mk (MpdPath.to_string r.file))),
          ("Artist", false, some r.artist), ("Album", false, some r.album),
          ("Title", false, some r.title)] ++ "Date: \n" ++
        renderStruct [("Pos", false, some (toString r.pos)),
          ("Id", false, some (toString r.id)),
          ("duration", false, some (renderF64 r.duration)),
          ("Track", true, r.track.map (fun n => toString n)),
          ("Disc", true, r.disc.map (fun n => toString n))]) := by
  refine ⟨?_, ?_, rfl, ?_⟩
  · intro pre post key
    simp only [renderStruct, List.map_append, List.map_cons, string_join_append,
      string_join_cons]
    have : renderOptField key true none = "" := rfl
    rw [this, string_empty_append]
  · intro fields h
    induction fields with
    | nil => rfl
    | cons f rest ih =>
      obtain ⟨k, skip, v⟩ := f
      obtain ⟨h1, h2⟩ := h (k, skip, v) (by simp)
      have h1' : skip = true := h1
      have h2' : v = none := h2
      subst h1'
      subst h2'
      simp only [renderStruct, List.map_cons, string_join_cons]
      rw [show renderOptField k true none = "" from rfl, string_empty_append]
      exact ih (fun f hf => h f (by simp [hf]))
  · intro r hd
    simp only [serializeSongResponse, songResponseFields, hd]
    simp only [renderStruct, List.map_cons, List.map_nil, string_join_cons,
      show String.join ([] : List String) = "" from rfl, Option.map_none']
    rw [show renderOptField "Date" false none = "Date: \n" from rfl]
    simp [String.append_assoc, string_append_empty]

/-- Closed witness for `c7_serializer_optional_omission_amended`: concrete
instances of the omission equation, the all-`None` record, and the emitted
`Date: ` line. -/
theorem c7_serializer_optional_omission_amended_witness :
    renderStruct ([("A", false, some "x")] ++ ("K", true, none) :: []) =
      renderStruct ([("A", false, some "x")] ++ []) ∧
    renderStruct [("K", true, (none : Option String))] = "" ∧
    serializeSongResponse ⟨.empty, "A", "B", "T", none, 0, 1, 180, none, none⟩ =
      renderStruct [("file", false, some (String.mk (MpdPath.to_string MpdPath.empty))),
        ("Artist", false, some "A"), ("Album", false, some "B"),
        ("Title", false, some "T")] ++ "Date: \n" ++
      renderStruct [("Pos", false, some (toString (0 : Nat))),
        ("Id", false, some (toString (1 : Nat))),
        ("duration", false, some (renderF64 180)),
        ("Track", true, (none : Option Nat).map (fun n => toString n)),
        ("Disc", true, (none : Option Nat).map (fun n => toString n))] :=
  ⟨c7_serializer_optional_omission_amended.1 [("A", false, some "x")] [] "K",
   c7_serializer_optional_omission_amended.2.1 [("K", true, none)] (by simp),
   c7_serializer_optional_omission_amended.2.2.2
     ⟨.empty, "A", "B", "T", none, 0, 1, 180, none, none⟩ rfl⟩
